import Mathlib

/-!
Shallow embedding of the resilient sampling engine of the Py_Exporter
host-metrics agent, together with proofs about its monotonic counter guard,
its filesystem probe/quarantine orchestration, and its memory collector.

Python `float` sample values are modelled as rationals (`ℚ`): the code only
compares and copies sample values, so no floating-point rounding is involved
in any property proved here.  Python `dict`s are modelled as association
lists (`List (key × value)`) with first-match lookup and
update-in-place-or-append assignment, which reproduces `dict` lookup and
`d[k] = v` semantics (insertion order preserved, keys unique when built from
unique keys).
-/

set_option maxHeartbeats 1000000

namespace PyExporter

/-- `d.get(k)` / `k in d` on a Python dict modelled as an association list:
return the value of the first (unique) entry with key `k`. -/
def dictLookup {α β : Type} [DecidableEq α] : List (α × β) → α → Option β
  | [], _ => none
  | (k', v') :: rest, k => if k' = k then some v' else dictLookup rest k

/-- `d[k] = v` on a Python dict modelled as an association list: overwrite the
entry for `k` in place if present, otherwise append it. -/
def dictInsert {α β : Type} [DecidableEq α] : List (α × β) → α → β → List (α × β)
  | [], k, v => [(k, v)]
  | (k', v') :: rest, k, v =>
    if k' = k then (k, v) :: rest else (k', v') :: dictInsert rest k v

@[simp] theorem dictLookup_nil {α β : Type} [DecidableEq α] (k : α) :
    dictLookup ([] : List (α × β)) k = none := rfl

@[simp] theorem dictLookup_cons {α β : Type} [DecidableEq α] (k' k : α) (v' : β)
    (rest : List (α × β)) :
    dictLookup ((k', v') :: rest) k =
      if k' = k then some v' else dictLookup rest k := rfl

@[simp] theorem dictInsert_nil {α β : Type} [DecidableEq α] (k : α) (v : β) :
    dictInsert ([] : List (α × β)) k v = [(k, v)] := rfl

@[simp] theorem dictInsert_cons {α β : Type} [DecidableEq α] (k' k : α) (v' v : β)
    (rest : List (α × β)) :
    dictInsert ((k', v') :: rest) k v =
      if k' = k then (k, v) :: rest else (k', v') :: dictInsert rest k v := rfl

theorem dictLookup_dictInsert_self {α β : Type} [DecidableEq α]
    (d : List (α × β)) (k : α) (v : β) :
    dictLookup (dictInsert d k v) k = some v := by
  induction d with
  | nil => simp
  | cons kv rest ih =>
    obtain ⟨k', v'⟩ := kv
    by_cases h : k' = k <;> simp [h, ih]

theorem dictLookup_dictInsert_ne {α β : Type} [DecidableEq α]
    (d : List (α × β)) (k k' : α) (v : β) (hne : k ≠ k') :
    dictLookup (dictInsert d k v) k' = dictLookup d k' := by
  induction d with
  | nil => simp [hne]
  | cons kv rest ih =>
    obtain ⟨k₀, v₀⟩ := kv
    by_cases h : k₀ = k
    · subst h
      simp [hne]
    · simp only [dictInsert_cons, if_neg h, dictLookup_cons, ih]

/-- A metric time series identity: for the CPU collector the pair
`(cpu, mode)`, for the network collector the pair `(device, field)`. -/
abbrev MetricKey := String × String

/-- `self._last_stats`, the per-collector previous-value store. -/
abbrev Store := List (MetricKey × ℚ)

/-- Body of the per-key loop of `CpuCollector.collect`
(src/collector/cpu/cpu_collector.py lines 44-53):
`last = self._last_stats.get(key)`; if `last is None or value >= last` the
raw value is published and stored, otherwise the stale `last` is published
and the store is left unchanged.  Returns the updated store and the value
passed to `metric.add_metric`. -/
def cpuGuardKey (stats : Store) (key : MetricKey) (value : ℚ) : Store × ℚ :=
  match dictLookup stats key with
  | none => (dictInsert stats key value, value)
  | some last => if last ≤ value then (dictInsert stats key value, value) else (stats, last)

/-- The guarded publication loop of `CpuCollector.collect`
(src/collector/cpu/cpu_collector.py lines 43-53): iterate over
`current.items()` in order, running the per-key guard on each entry and
emitting one `(key, published)` pair per entry. -/
def cpuGuard (stats : Store) : List (MetricKey × ℚ) → Store × List (MetricKey × ℚ)
  | [] => (stats, [])
  | (key, value) :: rest =>
    let r := cpuGuardKey stats key value
    let r' := cpuGuard r.1 rest
    (r'.1, (key, r.2) :: r'.2)

/-- Body of the per-key counter loop of `NetworkCollector.collect`
(src/collector/network/network_collector_linux.py lines 215-221):
`last = self._last_stats.get(key)`; if `last is None or value >= last` the
raw value is published and stored, otherwise the stale `last` is published
and the store is left unchanged. -/
def networkGuardKey (stats : Store) (key : MetricKey) (value : ℚ) : Store × ℚ :=
  match dictLookup stats key with
  | none => (dictInsert stats key value, value)
  | some last => if last ≤ value then (dictInsert stats key value, value) else (stats, last)

/-- `NETWORK_COUNTER_FIELDS` from
src/collector/network/network_collector_linux.py lines 7-24. -/
def NETWORK_COUNTER_FIELDS : List String :=
  ["receive_bytes", "receive_packets", "receive_errs", "receive_drop",
   "receive_fifo", "receive_frame", "receive_compressed", "receive_multicast",
   "transmit_bytes", "transmit_packets", "transmit_errs", "transmit_drop",
   "transmit_fifo", "transmit_colls", "transmit_carrier", "transmit_compressed"]

/-- Inner device loop of the network counter publication
(src/collector/network/network_collector_linux.py lines 212-221): for one
`field`, iterate the devices, look the key up in the raw sample with
`current.get(key, 0.0)` and run the per-key guard. -/
def networkGuardDevices (stats : Store) (field : String)
    (current : List (MetricKey × ℚ)) :
    List String → Store × List (MetricKey × ℚ)
  | [] => (stats, [])
  | device :: rest =>
    let key := (device, field)
    let value := (dictLookup current key).getD 0
    let r := networkGuardKey stats key value
    let r' := networkGuardDevices r.1 field current rest
    (r'.1, (key, r.2) :: r'.2)

/-- Outer field loop of the network counter publication
(src/collector/network/network_collector_linux.py lines 211-221). -/
def networkGuardFields (devices : List String) (current : List (MetricKey × ℚ)) :
    Store → List String → Store × List (MetricKey × ℚ)
  | stats, [] => (stats, [])
  | stats, field :: fs =>
    let r := networkGuardDevices stats field current devices
    let r' := networkGuardFields devices current r.1 fs
    (r'.1, r.2 ++ r'.2)

/-- The counter-metric section of `NetworkCollector.collect`
(src/collector/network/network_collector_linux.py lines 209-221): for every
field in `NETWORK_COUNTER_FIELDS` and every discovered device, publish the
guarded value of `(device, field)`.  `devices` is the iteration order of the
Python `devices` set. -/
def networkCounterGuard (stats : Store) (devices : List String)
    (current : List (MetricKey × ℚ)) : Store × List (MetricKey × ℚ) :=
  networkGuardFields devices current stats NETWORK_COUNTER_FIELDS

/-- Successive scrapes for one counter key: replay a sequence of raw sample
values `v1, ..., vn` for key `k` through a per-key guard step (the loop body
each collector applies to `k` on each scrape), returning the final store and
the published sequence `p1, ..., pn`. -/
def keyRun (step : Store → MetricKey → ℚ → Store × ℚ) (stats : Store)
    (k : MetricKey) : List ℚ → Store × List ℚ
  | [] => (stats, [])
  | v :: vs =>
    let r := step stats k v
    let r' := keyRun step r.1 k vs
    (r'.1, r.2 :: r'.2)

/-- The keys published by the network counter loop: for every field of
`NETWORK_COUNTER_FIELDS` (outer loop), one key per discovered device
(inner loop). -/
def counterKeys (devices : List String) : List MetricKey :=
  NETWORK_COUNTER_FIELDS.foldr (fun field acc => devices.map (fun d => (d, field)) ++ acc) []

/-- `STAT_TIMEOUT` (src/collector/filesys/filesys_collector_linux.py line 9):
per-probe timeout in seconds. -/
def STAT_TIMEOUT : ℚ := 5

/-- `STAT_WORKERS` (src/collector/filesys/filesys_collector_linux.py line 10):
thread-pool concurrency. -/
def STAT_WORKERS : ℕ := 4

/-- `STUCK_TTL` (src/collector/filesys/filesys_collector_linux.py line 11):
quarantine cool-down in seconds. -/
def STUCK_TTL : ℚ := 300

/-- One parsed row of `/proc/self/mountinfo` as built by `parse_mountinfo`
(src/collector/filesys/filesys_collector_linux.py lines 107-127). -/
structure Mount where
  device : String
  mountpoint : String
  fstype : String
  options : String
deriving DecidableEq

/-- The fields of the dict returned by `statfs_call`
(src/collector/filesys/filesys_collector_linux.py lines 134-142). -/
structure FsStats where
  size : ℚ
  free : ℚ
  avail : ℚ
  files : ℚ
  files_free : ℚ
deriving DecidableEq

/-- Outcome of `future.result(timeout=STAT_TIMEOUT)` for one mount's
`statfs_call` (src/collector/filesys/filesys_collector_linux.py lines 79-97):
the stats dict on success, `TimeoutError`, or any other exception. -/
inductive ProbeResult where
  | success : FsStats → ProbeResult
  | timeout : ProbeResult
  | error : ProbeResult
deriving DecidableEq

/-- The label triple `[m["device"], m["mountpoint"], m["fstype"]]` attached to
every filesystem observation. -/
abbrev FsLabels := String × String × String

def mountLabels (m : Mount) : FsLabels := (m.device, m.mountpoint, m.fstype)

/-- `is_readonly` (src/collector/filesys/filesys_collector_linux.py
lines 130-131): `"ro" in options.split(",")`. -/
def is_readonly (options : String) : Bool :=
  (options.splitOn ",").contains "ro"

/-- The seven `GaugeMetricFamily` accumulators of `FilesysCollector.collect`
(src/collector/filesys/filesys_collector_linux.py lines 20-54); each
`add_metric(labels, v)` call appends `(labels, v)` to the family. -/
structure FsFamilies where
  size : List (FsLabels × ℚ)
  free : List (FsLabels × ℚ)
  avail : List (FsLabels × ℚ)
  files : List (FsLabels × ℚ)
  files_free : List (FsLabels × ℚ)
  readonly : List (FsLabels × ℚ)
  device_error : List (FsLabels × ℚ)

def FsFamilies.empty : FsFamilies := ⟨[], [], [], [], [], [], []⟩

/-- `stuck_mounts` (src/collector/filesys/filesys_collector_linux.py
line 14): mountpoint → last failure timestamp. -/
abbrev StuckMounts := List (String × ℚ)

/-- The quarantine test of the submission loop
(src/collector/filesys/filesys_collector_linux.py line 66):
`key in stuck_mounts and now - stuck_mounts[key] < STUCK_TTL`. -/
def isQuarantined (stuck : StuckMounts) (now : ℚ) (mp : String) : Bool :=
  match dictLookup stuck mp with
  | some ts => decide (now - ts < STUCK_TTL)
  | none => false

/-- The submission loop of `FilesysCollector.collect`
(src/collector/filesys/filesys_collector_linux.py lines 62-74): for each
mount, if its mountpoint has a recorded failure timestamp `ts` with
`now - ts < STUCK_TTL`, emit a `device_error` observation of 1 and skip it;
otherwise submit its probe.  Returns the quarantine observations and the
submitted mounts (the `futures` dict values, in insertion order).  `now` is
`time.time()` taken once before the loop (line 57); `stuck_mounts` is only
read here. -/
def filesysPhase1 (stuck : StuckMounts) (now : ℚ) :
    List Mount → List (FsLabels × ℚ) × List Mount
  | [] => ([], [])
  | m :: rest =>
    let r := filesysPhase1 stuck now rest
    if isQuarantined stuck now m.mountpoint then ((mountLabels m, 1) :: r.1, r.2)
    else (r.1, m :: r.2)

/-- The result loop of `FilesysCollector.collect`
(src/collector/filesys/filesys_collector_linux.py lines 76-97): for each
submitted mount, on success emit the five statistics, the readonly flag and a
`device_error` of 0; on `TimeoutError` write `time.time()` into
`stuck_mounts` for the mountpoint and emit a `device_error` of 1; on any
other exception emit a `device_error` of 1 only.  `probe` gives the outcome
of `future.result(timeout=STAT_TIMEOUT)` for a mountpoint, and
`recTime mp` the value of the `time.time()` call made when `mp`'s timeout is
handled (both depend only on the mountpoint). -/
def filesysPhase2 (probe : String → ProbeResult) (recTime : String → ℚ) :
    StuckMounts → List Mount → StuckMounts × FsFamilies
  | stuck, [] => (stuck, FsFamilies.empty)
  | stuck, m :: rest =>
    match probe m.mountpoint with
    | .success stats =>
      let r := filesysPhase2 probe recTime stuck rest
      (r.1, { r.2 with
        size := (mountLabels m, stats.size) :: r.2.size
        free := (mountLabels m, stats.free) :: r.2.free
        avail := (mountLabels m, stats.avail) :: r.2.avail
        files := (mountLabels m, stats.files) :: r.2.files
        files_free := (mountLabels m, stats.files_free) :: r.2.files_free
        readonly := (mountLabels m, if is_readonly m.options then 1 else 0) :: r.2.readonly
        device_error := (mountLabels m, 0) :: r.2.device_error })
    | .timeout =>
      let r := filesysPhase2 probe recTime
        (dictInsert stuck m.mountpoint (recTime m.mountpoint)) rest
      (r.1, { r.2 with device_error := (mountLabels m, 1) :: r.2.device_error })
    | .error =>
      let r := filesysPhase2 probe recTime stuck rest
      (r.1, { r.2 with device_error := (mountLabels m, 1) :: r.2.device_error })

/-- One scrape of `FilesysCollector.collect`
(src/collector/filesys/filesys_collector_linux.py lines 59-105): the
submission loop followed by the result loop over the submitted mounts.
Returns the updated `stuck_mounts` and the metric families; quarantine
`device_error` observations precede the result-loop ones.  The embedding is
total: no probe outcome escapes as an exception. -/
def filesysCollect (stuck : StuckMounts) (now : ℚ) (mounts : List Mount)
    (probe : String → ProbeResult) (recTime : String → ℚ) :
    StuckMounts × FsFamilies :=
  let p1 := filesysPhase1 stuck now mounts
  let p2 := filesysPhase2 probe recTime stuck p1.2
  (p2.1, { p2.2 with device_error := p1.1 ++ p2.2.device_error })

/-- The labels appearing in the six statistics families (everything except
`device_error`): size, free, avail, files, files_free and readonly. -/
def statsLabels (f : FsFamilies) : List FsLabels :=
  f.size.map Prod.fst ++ f.free.map Prod.fst ++ f.avail.map Prod.fst ++
    f.files.map Prod.fst ++ f.files_free.map Prod.fst ++ f.readonly.map Prod.fst

/-- Wall-clock wait of one `future.result(timeout=STAT_TIMEOUT)` call
(src/collector/filesys/filesys_collector_linux.py line 80) issued at time
`t`: the probe's absolute completion time is `endTime` (`none` = the
underlying call never returns); the call returns at the completion time if
that is within the deadline, and raises `TimeoutError` at `t + STAT_TIMEOUT`
otherwise. -/
def futureResultWait (t : ℚ) (endTime : Option ℚ) : ℚ :=
  match endTime with
  | some e => if e ≤ t + STAT_TIMEOUT then max t e else t + STAT_TIMEOUT
  | none => t + STAT_TIMEOUT

/-- Wall-clock time at which the result loop of `FilesysCollector.collect`
(lines 76-97) finishes, starting at time `t`, given the probes' absolute
completion times. -/
def resultLoopEnd : ℚ → List (Option ℚ) → ℚ
  | t, [] => t
  | t, e :: es => resultLoopEnd (futureResultWait t e) es

/-- Wall-clock time at which `ThreadPoolExecutor.shutdown(wait=True)` —
called by the `with` statement's exit (line 59) — returns: it joins every
worker thread, so it completes at the latest probe completion time and never
completes (`none`) if some probe never returns. -/
def shutdownJoin : List (Option ℚ) → Option ℚ
  | [] => some 0
  | e :: es =>
    match e with
    | none => none
    | some t =>
      match shutdownJoin es with
      | none => none
      | some t' => some (max t t')

/-- Timing model of one `FilesysCollector.collect` scrape over a batch of at
most `STAT_WORKERS` submitted probes, so that every probe starts at scrape
time 0 and its absolute completion time is its duration (`none` = the
blocking `os.statvfs` call never returns).  `collect` reaches its `yield`
statements (lines 99-105) only after both the result loop and the `with`
block's `shutdown(wait=True)` join have finished; the result is the time at
which that happens, or `none` if it never does. -/
def filesysScrapeWallTime (endTimes : List (Option ℚ)) : Option ℚ :=
  match shutdownJoin endTimes with
  | some j => some (max (resultLoopEnd 0 endTimes) j)
  | none => none

/-- The eight `/proc/meminfo` keys read by `MemCollector.collect`
(src/collector/memory/mem_collector_linux.py lines 51-60). -/
def MEM_METRIC_NAMES : List String :=
  ["MemTotal", "MemFree", "MemAvailable", "Buffers", "Cached",
   "SwapCached", "SwapTotal", "SwapFree"]

/-- The emission loop of `MemCollector.collect`
(src/collector/memory/mem_collector_linux.py lines 77-81):
`value = current[metric_name]` raises `KeyError` when the parsed source
lacks the key; the generator then terminates without yielding any family, so
an error result carries no observations at all. -/
def memCollectLoop (current : List (String × ℚ)) :
    List String → Except String (List (String × ℚ))
  | [] => .ok []
  | name :: rest =>
    match dictLookup current name with
    | none => .error "KeyError"
    | some v =>
      match memCollectLoop current rest with
      | .ok out => .ok ((name, v) :: out)
      | .error e => .error e

/-- `MemCollector.collect` (src/collector/memory/mem_collector_linux.py
lines 62-81) applied to the parsed `/proc/meminfo` dict `current`. -/
def memCollect (current : List (String × ℚ)) : Except String (List (String × ℚ)) :=
  memCollectLoop current MEM_METRIC_NAMES

theorem guardKey_eq : cpuGuardKey = networkGuardKey := rfl

theorem cpuGuardKey_lookup_self (stats : Store) (k : MetricKey) (v : ℚ) :
    dictLookup (cpuGuardKey stats k v).1 k = some (cpuGuardKey stats k v).2 := by
  unfold cpuGuardKey
  cases h : dictLookup stats k with
  | none => simp [dictLookup_dictInsert_self]
  | some last =>
    by_cases hle : last ≤ v
    · simp [hle, dictLookup_dictInsert_self]
    · simp [hle, h]

theorem cpuGuardKey_published_ge (stats : Store) (k : MetricKey) (v : ℚ)
    (l : ℚ) (h : dictLookup stats k = some l) :
    l ≤ (cpuGuardKey stats k v).2 := by
  unfold cpuGuardKey
  rw [h]
  by_cases hle : l ≤ v
  · simp [hle]
  · simp [hle]

theorem cpuGuardKey_published_eq (stats : Store) (k : MetricKey) (v : ℚ)
    (h : ∀ l, dictLookup stats k = some l → l ≤ v) :
    (cpuGuardKey stats k v).2 = v := by
  unfold cpuGuardKey
  cases hl : dictLookup stats k with
  | none => simp
  | some last => simp [h last hl]

theorem cpuGuardKey_lookup_ne (stats : Store) (k k' : MetricKey) (v : ℚ)
    (hne : k ≠ k') :
    dictLookup (cpuGuardKey stats k v).1 k' = dictLookup stats k' := by
  unfold cpuGuardKey
  cases dictLookup stats k with
  | none => simp [dictLookup_dictInsert_ne _ _ _ _ hne]
  | some last =>
    by_cases hle : last ≤ v
    · simp [hle, dictLookup_dictInsert_ne _ _ _ _ hne]
    · simp [hle]

theorem keyRun_length (step : Store → MetricKey → ℚ → Store × ℚ)
    (stats : Store) (k : MetricKey) (vs : List ℚ) :
    (keyRun step stats k vs).2.length = vs.length := by
  induction vs generalizing stats with
  | nil => rfl
  | cons v vs ih => simp [keyRun, ih]

theorem keyRun_cpu_chain (k : MetricKey) (vs : List ℚ) (stats : Store) :
    List.Chain' (· ≤ ·) (keyRun cpuGuardKey stats k vs).2 ∧
      ∀ p, dictLookup stats k = some p →
        List.Chain' (· ≤ ·) (p :: (keyRun cpuGuardKey stats k vs).2) := by
  induction vs generalizing stats with
  | nil =>
    refine ⟨List.chain'_nil, fun p _ => ?_⟩
    simp [keyRun]
  | cons v vs ih =>
    have hself := cpuGuardKey_lookup_self stats k v
    have htail := (ih (cpuGuardKey stats k v).1).2 _ hself
    refine ⟨by simpa [keyRun] using htail, fun p hp => ?_⟩
    have hge := cpuGuardKey_published_ge stats k v p hp
    simpa [keyRun, List.chain'_cons, hge] using htail

theorem keyRun_take_succ (step : Store → MetricKey → ℚ → Store × ℚ)
    (stats : Store) (k : MetricKey) (v : ℚ) (vs : List ℚ) (i : ℕ) :
    keyRun step stats k ((v :: vs).take (i + 1)) =
      (let r := step stats k v
       let r' := keyRun step r.1 k (vs.take i)
       (r'.1, r.2 :: r'.2)) := by
  simp [keyRun]

theorem keyRun_cpu_pointwise (k : MetricKey) (vs : List ℚ) (stats : Store)
    (i : ℕ) (hi : i < vs.length)
    (hadv : ∀ l, dictLookup (keyRun cpuGuardKey stats k (vs.take i)).1 k = some l →
      l ≤ vs.getD i 0) :
    (keyRun cpuGuardKey stats k vs).2.getD i 0 = vs.getD i 0 := by
  induction i generalizing vs stats with
  | zero =>
    cases vs with
    | nil => exact absurd hi (by simp)
    | cons v vs =>
      simp only [List.take_zero, keyRun, List.getD_cons_zero] at hadv ⊢
      exact cpuGuardKey_published_eq stats k v hadv
  | succ i ih =>
    cases vs with
    | nil => exact absurd hi (by simp)
    | cons v vs =>
      rw [keyRun_take_succ] at hadv
      simp only [keyRun, List.getD_cons_succ] at hadv ⊢
      exact ih vs _ (by simpa using hi) hadv

theorem cpuGuard_keys (stats : Store) (current : List (MetricKey × ℚ)) :
    (cpuGuard stats current).2.map Prod.fst = current.map Prod.fst := by
  induction current generalizing stats with
  | nil => rfl
  | cons kv rest ih =>
    obtain ⟨k, v⟩ := kv
    simp [cpuGuard, ih]

theorem networkGuardDevices_keys (field : String) (current : List (MetricKey × ℚ))
    (devices : List String) (stats : Store) :
    (networkGuardDevices stats field current devices).2.map Prod.fst =
      devices.map (fun d => (d, field)) := by
  induction devices generalizing stats with
  | nil => rfl
  | cons d rest ih =>
    simp [networkGuardDevices, ih]

theorem networkGuardFields_keys (devices : List String) (current : List (MetricKey × ℚ))
    (fs : List String) (stats : Store) :
    (networkGuardFields devices current stats fs).2.map Prod.fst =
      fs.foldr (fun field acc => devices.map (fun d => (d, field)) ++ acc) [] := by
  induction fs generalizing stats with
  | nil => rfl
  | cons field fs ih =>
    simp [networkGuardFields, networkGuardDevices_keys, ih]

theorem networkCounterGuard_keys (stats : Store) (devices : List String)
    (current : List (MetricKey × ℚ)) :
    (networkCounterGuard stats devices current).2.map Prod.fst = counterKeys devices :=
  networkGuardFields_keys devices current NETWORK_COUNTER_FIELDS stats

theorem cpuGuard_lookup_notin (stats : Store) (current : List (MetricKey × ℚ))
    (k : MetricKey) (hk : k ∉ current.map Prod.fst) :
    dictLookup (cpuGuard stats current).1 k = dictLookup stats k := by
  induction current generalizing stats with
  | nil => rfl
  | cons kv rest ih =>
    obtain ⟨k₀, v₀⟩ := kv
    simp only [List.map_cons, List.mem_cons, not_or] at hk
    have hne : k₀ ≠ k := fun h => hk.1 h.symm
    calc dictLookup (cpuGuard stats ((k₀, v₀) :: rest)).1 k
        = dictLookup (cpuGuardKey stats k₀ v₀).1 k := ih _ hk.2
      _ = dictLookup stats k := cpuGuardKey_lookup_ne stats k₀ k v₀ hne

theorem cpuGuard_regression (stats : Store) (current : List (MetricKey × ℚ))
    (k : MetricKey) (l v : ℚ) (hnd : (current.map Prod.fst).Nodup)
    (hl : dictLookup stats k = some l) (hmem : (k, v) ∈ current) (hlt : v < l) :
    dictLookup (cpuGuard stats current).1 k = some l := by
  induction current generalizing stats with
  | nil => exact absurd hmem (List.not_mem_nil _)
  | cons kv rest ih =>
    obtain ⟨k₀, v₀⟩ := kv
    simp only [List.map_cons, List.nodup_cons] at hnd
    rcases List.mem_cons.mp hmem with hhead | htail
    · injection hhead with hk hv
      subst hk
      subst hv
      have hstep : (cpuGuardKey stats k v).1 = stats := by
        unfold cpuGuardKey
        rw [hl]
        simp [not_le.mpr hlt]
      have hout : k ∉ rest.map Prod.fst := hnd.1
      show dictLookup (cpuGuard (cpuGuardKey stats k v).1 rest).1 k = some l
      rw [hstep, cpuGuard_lookup_notin stats rest k hout, hl]
    · have hne : k₀ ≠ k := by
        intro h
        subst h
        exact hnd.1 (List.mem_map.mpr ⟨(k₀, v), htail, rfl⟩)
      have hstep : dictLookup (cpuGuardKey stats k₀ v₀).1 k = some l := by
        rw [cpuGuardKey_lookup_ne stats k₀ k v₀ hne, hl]
      exact ih _ hnd.2 hstep htail

theorem filesysPhase1_cons_quarantined (stuck : StuckMounts) (now : ℚ) (m : Mount)
    (rest : List Mount) (hq : isQuarantined stuck now m.mountpoint = true) :
    filesysPhase1 stuck now (m :: rest) =
      ((mountLabels m, 1) :: (filesysPhase1 stuck now rest).1,
        (filesysPhase1 stuck now rest).2) := by
  simp [filesysPhase1, hq]

theorem filesysPhase1_cons_eligible (stuck : StuckMounts) (now : ℚ) (m : Mount)
    (rest : List Mount) (hq : isQuarantined stuck now m.mountpoint = false) :
    filesysPhase1 stuck now (m :: rest) =
      ((filesysPhase1 stuck now rest).1, m :: (filesysPhase1 stuck now rest).2) := by
  simp [filesysPhase1, hq]

theorem filesysPhase1_quarantined_not_submitted (stuck : StuckMounts) (now : ℚ)
    (mounts : List Mount) (m : Mount)
    (hq : isQuarantined stuck now m.mountpoint = true) :
    m ∉ (filesysPhase1 stuck now mounts).2 := by
  induction mounts with
  | nil => simp [filesysPhase1]
  | cons m0 rest ih =>
    by_cases hq0 : isQuarantined stuck now m0.mountpoint = true
    · rw [filesysPhase1_cons_quarantined stuck now m0 rest hq0]
      exact ih
    · rw [filesysPhase1_cons_eligible stuck now m0 rest (Bool.not_eq_true _ ▸ hq0)]
      intro hmem
      rcases List.mem_cons.mp hmem with heq | htail
      · subst heq
        exact hq0 hq
      · exact ih htail

theorem filesysPhase1_quarantined_obs (stuck : StuckMounts) (now : ℚ)
    (mounts : List Mount) (m : Mount) (hm : m ∈ mounts)
    (hq : isQuarantined stuck now m.mountpoint = true) :
    (mountLabels m, 1) ∈ (filesysPhase1 stuck now mounts).1 := by
  induction mounts with
  | nil => cases hm
  | cons m0 rest ih =>
    rcases List.mem_cons.mp hm with heq | htail
    · subst heq
      rw [filesysPhase1_cons_quarantined stuck now m rest hq]
      exact List.mem_cons_self _ _
    · by_cases hq0 : isQuarantined stuck now m0.mountpoint = true
      · rw [filesysPhase1_cons_quarantined stuck now m0 rest hq0]
        exact List.mem_cons_of_mem _ (ih htail)
      · rw [filesysPhase1_cons_eligible stuck now m0 rest (Bool.not_eq_true _ ▸ hq0)]
        exact ih htail

theorem filesysPhase1_eligible_submitted (stuck : StuckMounts) (now : ℚ)
    (mounts : List Mount) (m : Mount) (hm : m ∈ mounts)
    (hq : isQuarantined stuck now m.mountpoint = false) :
    m ∈ (filesysPhase1 stuck now mounts).2 := by
  induction mounts with
  | nil => cases hm
  | cons m0 rest ih =>
    rcases List.mem_cons.mp hm with heq | htail
    · subst heq
      rw [filesysPhase1_cons_eligible stuck now m rest hq]
      exact List.mem_cons_self _ _
    · by_cases hq0 : isQuarantined stuck now m0.mountpoint = true
      · rw [filesysPhase1_cons_quarantined stuck now m0 rest hq0]
        exact ih htail
      · rw [filesysPhase1_cons_eligible stuck now m0 rest (Bool.not_eq_true _ ▸ hq0)]
        exact List.mem_cons_of_mem _ (ih htail)

theorem filesysPhase1_submitted_not_quarantined (stuck : StuckMounts) (now : ℚ)
    (mounts : List Mount) :
    ∀ m ∈ (filesysPhase1 stuck now mounts).2,
      isQuarantined stuck now m.mountpoint = false := by
  induction mounts with
  | nil => simp [filesysPhase1]
  | cons m0 rest ih =>
    by_cases hq0 : isQuarantined stuck now m0.mountpoint = true
    · rw [filesysPhase1_cons_quarantined stuck now m0 rest hq0]
      exact ih
    · rw [filesysPhase1_cons_eligible stuck now m0 rest (Bool.not_eq_true _ ▸ hq0)]
      intro m hm
      rcases List.mem_cons.mp hm with heq | htail
      · subst heq
        exact Bool.not_eq_true _ ▸ hq0
      · exact ih m htail

theorem filesysPhase1_obs_values (stuck : StuckMounts) (now : ℚ)
    (mounts : List Mount) :
    ∀ o ∈ (filesysPhase1 stuck now mounts).1, o.2 = 1 := by
  induction mounts with
  | nil => simp [filesysPhase1]
  | cons m0 rest ih =>
    by_cases hq0 : isQuarantined stuck now m0.mountpoint = true
    · rw [filesysPhase1_cons_quarantined stuck now m0 rest hq0]
      intro o ho
      rcases List.mem_cons.mp ho with heq | htail
      · subst heq; rfl
      · exact ih o htail
    · rw [filesysPhase1_cons_eligible stuck now m0 rest (Bool.not_eq_true _ ▸ hq0)]
      exact ih

theorem filesysPhase1_labels_perm (stuck : StuckMounts) (now : ℚ)
    (mounts : List Mount) :
    ((filesysPhase1 stuck now mounts).1.map Prod.fst ++
        (filesysPhase1 stuck now mounts).2.map mountLabels).Perm
      (mounts.map mountLabels) := by
  induction mounts with
  | nil => simp [filesysPhase1]
  | cons m0 rest ih =>
    by_cases hq0 : isQuarantined stuck now m0.mountpoint = true
    · rw [filesysPhase1_cons_quarantined stuck now m0 rest hq0]
      simpa using ih.cons (mountLabels m0)
    · rw [filesysPhase1_cons_eligible stuck now m0 rest (Bool.not_eq_true _ ▸ hq0)]
      simp only [List.map_cons]
      exact List.perm_middle.trans (ih.cons (mountLabels m0))

theorem filesysPhase2_stuck_preserve (probe : String → ProbeResult)
    (recTime : String → ℚ) (fs : List Mount) (stuck : StuckMounts) (mp : String)
    (h : dictLookup stuck mp = some (recTime mp)) :
    dictLookup (filesysPhase2 probe recTime stuck fs).1 mp = some (recTime mp) := by
  induction fs generalizing stuck with
  | nil => exact h
  | cons m0 rest ih =>
    cases hp : probe m0.mountpoint with
    | success st => simpa [filesysPhase2, hp] using ih stuck h
    | timeout =>
      simp only [filesysPhase2, hp]
      by_cases hmp : m0.mountpoint = mp
      · subst hmp
        exact ih _ (dictLookup_dictInsert_self stuck m0.mountpoint (recTime m0.mountpoint))
      · refine ih _ ?_
        rw [dictLookup_dictInsert_ne _ _ _ _ hmp]
        exact h
    | error => simpa [filesysPhase2, hp] using ih stuck h

theorem filesysPhase2_stuck_write (probe : String → ProbeResult)
    (recTime : String → ℚ) (fs : List Mount) (stuck : StuckMounts) (mp : String)
    (hp : probe mp = .timeout) (hmem : ∃ m ∈ fs, m.mountpoint = mp) :
    dictLookup (filesysPhase2 probe recTime stuck fs).1 mp = some (recTime mp) := by
  induction fs generalizing stuck with
  | nil => obtain ⟨m, hm, _⟩ := hmem; cases hm
  | cons m0 rest ih =>
    by_cases hmp : m0.mountpoint = mp
    · have hp0 : probe m0.mountpoint = .timeout := by rw [hmp]; exact hp
      simp only [filesysPhase2, hp0]
      refine filesysPhase2_stuck_preserve probe recTime rest _ mp ?_
      rw [hmp]
      exact dictLookup_dictInsert_self stuck mp (recTime mp)
    · obtain ⟨m, hm, hmpm⟩ := hmem
      have hmrest : m ∈ rest := by
        rcases List.mem_cons.mp hm with heq | htail
        · exact absurd (heq ▸ hmpm) hmp
        · exact htail
      cases hp0 : probe m0.mountpoint with
      | success st => simpa [filesysPhase2, hp0] using ih stuck ⟨m, hmrest, hmpm⟩
      | timeout => simpa [filesysPhase2, hp0] using ih _ ⟨m, hmrest, hmpm⟩
      | error => simpa [filesysPhase2, hp0] using ih stuck ⟨m, hmrest, hmpm⟩

theorem filesysPhase2_stuck_frame (probe : String → ProbeResult)
    (recTime : String → ℚ) (fs : List Mount) (stuck : StuckMounts) (mp : String)
    (h : ∀ m ∈ fs, ¬(m.mountpoint = mp ∧ probe m.mountpoint = .timeout)) :
    dictLookup (filesysPhase2 probe recTime stuck fs).1 mp = dictLookup stuck mp := by
  induction fs generalizing stuck with
  | nil => rfl
  | cons m0 rest ih =>
    have hrest : ∀ m ∈ rest, ¬(m.mountpoint = mp ∧ probe m.mountpoint = .timeout) :=
      fun m hm => h m (List.mem_cons_of_mem _ hm)
    cases hp0 : probe m0.mountpoint with
    | success st => simpa [filesysPhase2, hp0] using ih stuck hrest
    | timeout =>
      have hne : m0.mountpoint ≠ mp := fun heq =>
        h m0 (List.mem_cons_self _ _) ⟨heq, hp0⟩
      simp only [filesysPhase2, hp0]
      rw [ih _ hrest, dictLookup_dictInsert_ne _ _ _ _ hne]
    | error => simpa [filesysPhase2, hp0] using ih stuck hrest

theorem filesysPhase2_deverr_keys (probe : String → ProbeResult)
    (recTime : String → ℚ) (fs : List Mount) (stuck : StuckMounts) :
    (filesysPhase2 probe recTime stuck fs).2.device_error.map Prod.fst =
      fs.map mountLabels := by
  induction fs generalizing stuck with
  | nil => rfl
  | cons m0 rest ih =>
    cases hp0 : probe m0.mountpoint with
    | success st => simp [filesysPhase2, hp0, ih]
    | timeout => simp [filesysPhase2, hp0, ih]
    | error => simp [filesysPhase2, hp0, ih]

theorem filesysPhase2_deverr_values (probe : String → ProbeResult)
    (recTime : String → ℚ) (fs : List Mount) (stuck : StuckMounts) :
    ∀ o ∈ (filesysPhase2 probe recTime stuck fs).2.device_error,
      o.2 = 0 ∨ o.2 = 1 := by
  induction fs generalizing stuck with
  | nil => simp [filesysPhase2, FsFamilies.empty]
  | cons m0 rest ih =>
    intro o ho
    cases hp0 : probe m0.mountpoint with
    | success st =>
      simp only [filesysPhase2, hp0] at ho
      rcases List.mem_cons.mp ho with heq | htail
      · subst heq; exact Or.inl rfl
      · exact ih stuck o htail
    | timeout =>
      simp only [filesysPhase2, hp0] at ho
      rcases List.mem_cons.mp ho with heq | htail
      · subst heq; exact Or.inr rfl
      · exact ih _ o htail
    | error =>
      simp only [filesysPhase2, hp0] at ho
      rcases List.mem_cons.mp ho with heq | htail
      · subst heq; exact Or.inr rfl
      · exact ih stuck o htail

theorem filesysPhase2_deverr_fail_mem (probe : String → ProbeResult)
    (recTime : String → ℚ) (fs : List Mount) (stuck : StuckMounts) (m : Mount)
    (hm : m ∈ fs)
    (hfail : probe m.mountpoint = .timeout ∨ probe m.mountpoint = .error) :
    (mountLabels m, 1) ∈ (filesysPhase2 probe recTime stuck fs).2.device_error := by
  induction fs generalizing stuck with
  | nil => cases hm
  | cons m0 rest ih =>
    rcases List.mem_cons.mp hm with heq | htail
    · subst heq
      rcases hfail with hp0 | hp0
      · simp [filesysPhase2, hp0]
      · simp [filesysPhase2, hp0]
    · cases hp0 : probe m0.mountpoint with
      | success st => simp only [filesysPhase2, hp0]; exact List.mem_cons_of_mem _ (ih stuck htail)
      | timeout => simp only [filesysPhase2, hp0]; exact List.mem_cons_of_mem _ (ih _ htail)
      | error => simp only [filesysPhase2, hp0]; exact List.mem_cons_of_mem _ (ih stuck htail)

theorem filesysPhase2_success_mem (probe : String → ProbeResult)
    (recTime : String → ℚ) (fs : List Mount) (stuck : StuckMounts) (m : Mount)
    (st : FsStats) (hm : m ∈ fs) (hps : probe m.mountpoint = .success st) :
    (mountLabels m, st.size) ∈ (filesysPhase2 probe recTime stuck fs).2.size ∧
    (mountLabels m, st.free) ∈ (filesysPhase2 probe recTime stuck fs).2.free ∧
    (mountLabels m, st.avail) ∈ (filesysPhase2 probe recTime stuck fs).2.avail ∧
    (mountLabels m, st.files) ∈ (filesysPhase2 probe recTime stuck fs).2.files ∧
    (mountLabels m, st.files_free) ∈
      (filesysPhase2 probe recTime stuck fs).2.files_free ∧
    (mountLabels m, if is_readonly m.options then 1 else 0) ∈
      (filesysPhase2 probe recTime stuck fs).2.readonly ∧
    (mountLabels m, 0) ∈ (filesysPhase2 probe recTime stuck fs).2.device_error := by
  induction fs generalizing stuck with
  | nil => cases hm
  | cons m0 rest ih =>
    rcases List.mem_cons.mp hm with heq | htail
    · subst heq
      simp only [filesysPhase2, hps]
      exact ⟨List.mem_cons_self _ _, List.mem_cons_self _ _, List.mem_cons_self _ _,
        List.mem_cons_self _ _, List.mem_cons_self _ _, List.mem_cons_self _ _,
        List.mem_cons_self _ _⟩
    · cases hp0 : probe m0.mountpoint with
      | success st0 =>
        obtain ⟨h1, h2, h3, h4, h5, h6, h7⟩ := ih stuck htail
        simp only [filesysPhase2, hp0]
        exact ⟨List.mem_cons_of_mem _ h1, List.mem_cons_of_mem _ h2,
          List.mem_cons_of_mem _ h3, List.mem_cons_of_mem _ h4,
          List.mem_cons_of_mem _ h5, List.mem_cons_of_mem _ h6,
          List.mem_cons_of_mem _ h7⟩
      | timeout =>
        obtain ⟨h1, h2, h3, h4, h5, h6, h7⟩ := ih _ htail
        simp only [filesysPhase2, hp0]
        exact ⟨h1, h2, h3, h4, h5, h6, List.mem_cons_of_mem _ h7⟩
      | error =>
        obtain ⟨h1, h2, h3, h4, h5, h6, h7⟩ := ih stuck htail
        simp only [filesysPhase2, hp0]
        exact ⟨h1, h2, h3, h4, h5, h6, List.mem_cons_of_mem _ h7⟩

theorem filesysPhase2_stats_source (probe : String → ProbeResult)
    (recTime : String → ℚ) (fs : List Mount) (stuck : StuckMounts) :
    ∀ lab ∈ statsLabels (filesysPhase2 probe recTime stuck fs).2,
      ∃ m ∈ fs, lab = mountLabels m ∧ ∃ st, probe m.mountpoint = .success st := by
  induction fs generalizing stuck with
  | nil =>
    simp [filesysPhase2, FsFamilies.empty, statsLabels]
  | cons m0 rest ih =>
    intro lab hlab
    cases hp0 : probe m0.mountpoint with
    | success st =>
      have hcase : lab = mountLabels m0 ∨
          lab ∈ statsLabels (filesysPhase2 probe recTime stuck rest).2 := by
        simp only [statsLabels, filesysPhase2, hp0, List.map_cons, List.cons_append,
          List.mem_append, List.mem_cons] at hlab ⊢
        tauto
      rcases hcase with h | h
      · exact ⟨m0, List.mem_cons_self _ _, h, st, hp0⟩
      · obtain ⟨m, hm, hl, st', hp'⟩ := ih stuck lab h
        exact ⟨m, List.mem_cons_of_mem _ hm, hl, st', hp'⟩
    | timeout =>
      simp only [filesysPhase2, hp0] at hlab
      obtain ⟨m, hm, hl, st', hp'⟩ := ih _ lab hlab
      exact ⟨m, List.mem_cons_of_mem _ hm, hl, st', hp'⟩
    | error =>
      simp only [filesysPhase2, hp0] at hlab
      obtain ⟨m, hm, hl, st', hp'⟩ := ih stuck lab hlab
      exact ⟨m, List.mem_cons_of_mem _ hm, hl, st', hp'⟩

theorem filesysCollect_device_error (stuck : StuckMounts) (now : ℚ)
    (mounts : List Mount) (probe : String → ProbeResult) (recTime : String → ℚ) :
    (filesysCollect stuck now mounts probe recTime).2.device_error =
      (filesysPhase1 stuck now mounts).1 ++
        (filesysPhase2 probe recTime stuck
          (filesysPhase1 stuck now mounts).2).2.device_error := rfl

theorem filesysCollect_stuck (stuck : StuckMounts) (now : ℚ)
    (mounts : List Mount) (probe : String → ProbeResult) (recTime : String → ℚ) :
    (filesysCollect stuck now mounts probe recTime).1 =
      (filesysPhase2 probe recTime stuck (filesysPhase1 stuck now mounts).2).1 := rfl

theorem filesysCollect_statsLabels (stuck : StuckMounts) (now : ℚ)
    (mounts : List Mount) (probe : String → ProbeResult) (recTime : String → ℚ) :
    statsLabels (filesysCollect stuck now mounts probe recTime).2 =
      statsLabels (filesysPhase2 probe recTime stuck
        (filesysPhase1 stuck now mounts).2).2 := rfl

theorem memCollectLoop_missing (current : List (String × ℚ)) (names : List String)
    (name : String) (hmem : name ∈ names) (habs : dictLookup current name = none) :
    memCollectLoop current names = .error "KeyError" := by
  induction names with
  | nil => cases hmem
  | cons n rest ih =>
    rcases List.mem_cons.mp hmem with heq | htail
    · subst heq
      simp [memCollectLoop, habs]
    · cases hn : dictLookup current n with
      | none => simp [memCollectLoop, hn]
      | some v =>
        simp only [memCollectLoop, hn]
        rw [ih htail]

/-- C1: for every counter MetricKey processed by the monotonic guard (the CPU
collector's per-key step and the network counter collector's per-key step),
and for any sequence of raw sample values `v1..vn` for that key, the
published sequence `p1..pn` is non-decreasing, and `p i = v i` whenever
there is no stored previous value for the key or `v i` is at least the
stored previous value; equivalently, the value exposed on scrape `n` is
never less than the value exposed on scrape `n-1`. -/
theorem claim_counter_guard_monotone (stats : Store) (k : MetricKey) (vs : List ℚ) :
    (List.Chain' (· ≤ ·) (keyRun cpuGuardKey stats k vs).2 ∧
      ∀ i, i < vs.length →
        (∀ l, dictLookup (keyRun cpuGuardKey stats k (vs.take i)).1 k = some l →
          l ≤ vs.getD i 0) →
        (keyRun cpuGuardKey stats k vs).2.getD i 0 = vs.getD i 0) ∧
    (List.Chain' (· ≤ ·) (keyRun networkGuardKey stats k vs).2 ∧
      ∀ i, i < vs.length →
        (∀ l, dictLookup (keyRun networkGuardKey stats k (vs.take i)).1 k = some l →
          l ≤ vs.getD i 0) →
        (keyRun networkGuardKey stats k vs).2.getD i 0 = vs.getD i 0) := by
  constructor
  · exact ⟨(keyRun_cpu_chain k vs stats).1,
      fun i hi h => keyRun_cpu_pointwise k vs stats i hi h⟩
  · rw [← guardKey_eq]
    exact ⟨(keyRun_cpu_chain k vs stats).1,
      fun i hi h => keyRun_cpu_pointwise k vs stats i hi h⟩

/-- Witness for C1 at the spec's scenario: raw readings 1000, 1000, 990, 1050
for key `(cpu="0", mode="user")` from an empty store; the fourth raw value
advanced past the stored previous value, so the fourth published value is the
raw 1050. -/
theorem claim_counter_guard_monotone_witness :
    (keyRun cpuGuardKey [] ("0", "user") [1000, 1000, 990, 1050]).2.getD 3 0 = 1050 :=
  (claim_counter_guard_monotone [] ("0", "user") [1000, 1000, 990, 1050]).1.2 3
    (by norm_num)
    (by
      intro l hl
      rw [(by decide : dictLookup (keyRun cpuGuardKey [] ("0", "user")
        ([1000, 1000, 990, 1050].take 3)).1 ("0", "user") = some (1000 : ℚ))] at hl
      have h1000 := Option.some.inj hl
      rw [← h1000]
      decide)

/-- C8: the per-key monotonic-guard step used by the CPU collector and the
one used by the network counter collector compute identical results: on
every (store, key, raw value) input both publish the same value and perform
the same store update. -/
theorem claim_guard_steps_identical (stats : Store) (key : MetricKey) (value : ℚ) :
    cpuGuardKey stats key value = networkGuardKey stats key value :=
  congrFun (congrFun (congrFun guardKey_eq stats) key) value

/-- C6 counterexample: with devices = ["eth0"] (discovered, e.g., via
/sys/class/net) and a raw sample containing only the gauge key
`("eth0", "up")`, the network counter loop publishes the counter key
`("eth0", "receive_bytes")`, which is not a key of the current raw sample —
refuting that no key not in the sample is added. -/
theorem claim_guard_output_keys_counterexample :
    ("eth0", "receive_bytes") ∈
        (networkCounterGuard [] ["eth0"] [(("eth0", "up"), 1)]).2.map Prod.fst ∧
      ("eth0", "receive_bytes") ∉ ([(("eth0", "up"), (1 : ℚ))].map Prod.fst) := by
  constructor
  · decide
  · decide

/-- C6 (amended): the CPU collector's guard output has exactly the keys of
the current raw sample, in order, while the network counter collector's
output has exactly one pair per `(device, field)` with `device` a discovered
device and `field` in `NETWORK_COUNTER_FIELDS`, independent of which keys
the current raw sample contains (a key absent from the sample is published
from the default raw value 0.0). -/
theorem claim_guard_output_keys_amended :
    (∀ (stats : Store) (current : List (MetricKey × ℚ)),
        (cpuGuard stats current).2.map Prod.fst = current.map Prod.fst) ∧
      ∀ (stats : Store) (devices : List String) (current : List (MetricKey × ℚ)),
        (networkCounterGuard stats devices current).2.map Prod.fst =
          counterKeys devices :=
  ⟨cpuGuard_keys, networkCounterGuard_keys⟩

/-- C7: the CPU collector's guard mutates the previous-value store only at
keys of the current sample whose value advanced: a key absent from the
current sample keeps its stored entry and is not republished, and a key
whose current value is below the stored previous value keeps the stored
previous value unchanged. -/
theorem claim_guard_store_frame (stats : Store) (current : List (MetricKey × ℚ))
    (k : MetricKey) :
    (k ∉ current.map Prod.fst →
        dictLookup (cpuGuard stats current).1 k = dictLookup stats k ∧
          k ∉ (cpuGuard stats current).2.map Prod.fst) ∧
      ∀ l v, (current.map Prod.fst).Nodup → dictLookup stats k = some l →
        (k, v) ∈ current → v < l →
        dictLookup (cpuGuard stats current).1 k = some l := by
  constructor
  · intro hk
    refine ⟨cpuGuard_lookup_notin stats current k hk, ?_⟩
    rw [cpuGuard_keys]
    exact hk
  · intro l v hnd hl hmem hlt
    exact cpuGuard_regression stats current k l v hnd hl hmem hlt

/-- Witness for C7 at the spec's regression-replay instance: previous value
100 and raw value 80 for key `("0", "user")` leave the stored previous value
at 100. -/
theorem claim_guard_store_frame_witness :
    dictLookup (cpuGuard [(("0", "user"), 100)] [(("0", "user"), 80)]).1
      ("0", "user") = some 100 :=
  (claim_guard_store_frame [(("0", "user"), 100)] [(("0", "user"), 80)]
    ("0", "user")).2 100 80 (by decide) (by decide) (by decide) (by decide)

/-- C2 (code bug): with three mounts of which one (`/mnt/slow`) has a statvfs
call that never returns (probe completion times 1s, 1s, never, timeout
`STAT_TIMEOUT` = 5), the per-future waits of the result loop all finish by
time 6, yet `collect` never returns at all: the `with ThreadPoolExecutor`
block's exit calls `shutdown(wait=True)`, which joins the worker blocked in
the hung call, so no result set is produced within `T + ε` — or ever. -/
theorem claim_probe_executor_wall_time_unbounded :
    resultLoopEnd 0 [some 1, some 1, none] = 6 ∧
      filesysScrapeWallTime [some 1, some 1, none] = none := by
  constructor
  · norm_num [resultLoopEnd, futureResultWait, STAT_TIMEOUT]
  · simp [filesysScrapeWallTime, shutdownJoin]

/-- C3: a mount whose mountpoint has a recorded failure timestamp `t0` is,
on a scrape at time `now` with `now - t0 < 300`, excluded from the probe
batch (its probe is never submitted) and reported with a synthetic
device-error observation of value 1; when `now - t0 ≥ 300` it re-enters the
normal probe pool; and a renewed timeout records the new failure time for
its mountpoint, so the cool-down restarts from the new failure. -/
theorem claim_quarantine_cooldown (stuck : StuckMounts) (now : ℚ)
    (mounts : List Mount) (probe : String → ProbeResult) (recTime : String → ℚ)
    (m : Mount) (t0 : ℚ) (hm : m ∈ mounts)
    (ht : dictLookup stuck m.mountpoint = some t0) :
    (now - t0 < STUCK_TTL →
        m ∉ (filesysPhase1 stuck now mounts).2 ∧
          (mountLabels m, 1) ∈
            (filesysCollect stuck now mounts probe recTime).2.device_error) ∧
      (STUCK_TTL ≤ now - t0 → m ∈ (filesysPhase1 stuck now mounts).2) ∧
      (m ∈ (filesysPhase1 stuck now mounts).2 → probe m.mountpoint = .timeout →
        dictLookup (filesysCollect stuck now mounts probe recTime).1
          m.mountpoint = some (recTime m.mountpoint)) := by
  refine ⟨fun hcool => ?_, fun hge => ?_, fun hfut hto => ?_⟩
  · have hq : isQuarantined stuck now m.mountpoint = true := by
      unfold isQuarantined
      rw [ht]
      exact decide_eq_true hcool
    refine ⟨filesysPhase1_quarantined_not_submitted stuck now mounts m hq, ?_⟩
    rw [filesysCollect_device_error]
    exact List.mem_append_left _ (filesysPhase1_quarantined_obs stuck now mounts m hm hq)
  · have hq : isQuarantined stuck now m.mountpoint = false := by
      unfold isQuarantined
      rw [ht]
      exact decide_eq_false (not_lt.mpr hge)
    exact filesysPhase1_eligible_submitted stuck now mounts m hm hq
  · rw [filesysCollect_stuck]
    exact filesysPhase2_stuck_write probe recTime _ stuck m.mountpoint hto
      ⟨m, hfut, rfl⟩

/-- Witness for C3: mountpoint `/data` failed at time 10; a scrape at time
100 (90 s later, inside the 300 s cool-down) does not submit its probe and
emits the synthetic device-error observation of 1. -/
theorem claim_quarantine_cooldown_witness :
    (⟨"sda", "/data", "ext4", "rw"⟩ : Mount) ∉
        (filesysPhase1 [("/data", 10)] 100 [⟨"sda", "/data", "ext4", "rw"⟩]).2 ∧
      ((("sda", "/data", "ext4") : FsLabels), 1) ∈
        (filesysCollect [("/data", 10)] 100 [⟨"sda", "/data", "ext4", "rw"⟩]
          (fun _ => .timeout) (fun _ => 400)).2.device_error :=
  (claim_quarantine_cooldown [("/data", 10)] 100 [⟨"sda", "/data", "ext4", "rw"⟩]
    (fun _ => .timeout) (fun _ => 400) ⟨"sda", "/data", "ext4", "rw"⟩ 10
    (by decide) (by decide)).1 (by norm_num [STUCK_TTL])

/-- C4: the quarantine registry's failure timestamp changes exactly for
mountpoints whose submitted probe reported Timeout; a submitted probe that
fails with a system-call error yields a device-error observation of 1 for
that scrape, leaves the quarantine entry of its mountpoint unchanged, and
the embedding is total, so the error never escapes the executor boundary as
an exception. -/
theorem claim_timeout_only_quarantine (stuck : StuckMounts) (now : ℚ)
    (mounts : List Mount) (probe : String → ProbeResult) (recTime : String → ℚ) :
    (∀ m ∈ (filesysPhase1 stuck now mounts).2, probe m.mountpoint = .error →
        (mountLabels m, 1) ∈
            (filesysCollect stuck now mounts probe recTime).2.device_error ∧
          dictLookup (filesysCollect stuck now mounts probe recTime).1
            m.mountpoint = dictLookup stuck m.mountpoint) ∧
      ∀ mp, dictLookup (filesysCollect stuck now mounts probe recTime).1 mp ≠
          dictLookup stuck mp →
        ∃ m ∈ (filesysPhase1 stuck now mounts).2,
          m.mountpoint = mp ∧ probe mp = .timeout := by
  constructor
  · intro m hm herr
    constructor
    · rw [filesysCollect_device_error]
      exact List.mem_append_right _
        (filesysPhase2_deverr_fail_mem probe recTime _ stuck m hm (Or.inr herr))
    · rw [filesysCollect_stuck]
      refine filesysPhase2_stuck_frame probe recTime _ stuck m.mountpoint ?_
      rintro m' hm' ⟨hmp, hto⟩
      rw [hmp] at hto
      rw [herr] at hto
      cases hto
  · intro mp hchange
    by_contra hnot
    push_neg at hnot
    refine hchange ?_
    rw [filesysCollect_stuck]
    refine filesysPhase2_stuck_frame probe recTime _ stuck mp ?_
    rintro m' hm' ⟨hmp, hto⟩
    rw [hmp] at hto
    exact hnot m' hm' hmp hto

/-- Witness for C4: a single unquarantined mount whose probe errors gets a
device-error observation of 1 and leaves the (empty) quarantine registry
unchanged at its mountpoint. -/
theorem claim_timeout_only_quarantine_witness :
    ((("sda", "/", "ext4") : FsLabels), 1) ∈
        (filesysCollect [] 0 [⟨"sda", "/", "ext4", "rw"⟩]
          (fun _ => .error) (fun _ => 0)).2.device_error ∧
      dictLookup (filesysCollect [] 0 [⟨"sda", "/", "ext4", "rw"⟩]
          (fun _ => .error) (fun _ => 0)).1 "/" =
        dictLookup ([] : StuckMounts) "/" :=
  (claim_timeout_only_quarantine [] 0 [⟨"sda", "/", "ext4", "rw"⟩]
    (fun _ => .error) (fun _ => 0)).1 ⟨"sda", "/", "ext4", "rw"⟩
    (by decide) (by decide)

/-- C5: on every filesystem scrape, the device-error family carries exactly
one observation per mount of the parsed mount table — its label multiset is
a permutation of the mounts' label list, so no mount is dropped — every
device-error value is 0 or 1, and the value corresponds to the outcome: a
successful probe yields 0 together with the full statistics metrics (size,
free, avail, files, files_free, readonly), while a quarantined mount and a
probe that times out or errors yield 1. -/
theorem claim_device_error_complete (stuck : StuckMounts) (now : ℚ)
    (mounts : List Mount) (probe : String → ProbeResult) (recTime : String → ℚ) :
    ((filesysCollect stuck now mounts probe recTime).2.device_error.map
        Prod.fst).Perm (mounts.map mountLabels) ∧
      (∀ o ∈ (filesysCollect stuck now mounts probe recTime).2.device_error,
        o.2 = 0 ∨ o.2 = 1) ∧
      ∀ m ∈ mounts,
        (isQuarantined stuck now m.mountpoint = true →
            (mountLabels m, 1) ∈
              (filesysCollect stuck now mounts probe recTime).2.device_error) ∧
        (isQuarantined stuck now m.mountpoint = false →
          (∀ st, probe m.mountpoint = .success st →
              (mountLabels m, 0) ∈
                  (filesysCollect stuck now mounts probe recTime).2.device_error ∧
                (mountLabels m, st.size) ∈
                  (filesysCollect stuck now mounts probe recTime).2.size ∧
                (mountLabels m, st.free) ∈
                  (filesysCollect stuck now mounts probe recTime).2.free ∧
                (mountLabels m, st.avail) ∈
                  (filesysCollect stuck now mounts probe recTime).2.avail ∧
                (mountLabels m, st.files) ∈
                  (filesysCollect stuck now mounts probe recTime).2.files ∧
                (mountLabels m, st.files_free) ∈
                  (filesysCollect stuck now mounts probe recTime).2.files_free ∧
                (mountLabels m, if is_readonly m.options then 1 else 0) ∈
                  (filesysCollect stuck now mounts probe recTime).2.readonly) ∧
          ((probe m.mountpoint = .timeout ∨ probe m.mountpoint = .error) →
              (mountLabels m, 1) ∈
                (filesysCollect stuck now mounts probe recTime).2.device_error)) := by
  refine ⟨?_, ?_, ?_⟩
  · rw [filesysCollect_device_error, List.map_append, filesysPhase2_deverr_keys]
    exact filesysPhase1_labels_perm stuck now mounts
  · intro o ho
    rw [filesysCollect_device_error] at ho
    rcases List.mem_append.mp ho with h | h
    · exact Or.inr (filesysPhase1_obs_values stuck now mounts o h)
    · exact filesysPhase2_deverr_values probe recTime _ stuck o h
  · intro m hm
    refine ⟨fun hq => ?_, fun hq => ⟨fun st hps => ?_, fun hpr => ?_⟩⟩
    · rw [filesysCollect_device_error]
      exact List.mem_append_left _
        (filesysPhase1_quarantined_obs stuck now mounts m hm hq)
    · have hfut := filesysPhase1_eligible_submitted stuck now mounts m hm hq
      obtain ⟨h1, h2, h3, h4, h5, h6, h7⟩ :=
        filesysPhase2_success_mem probe recTime _ stuck m st hfut hps
      refine ⟨?_, h1, h2, h3, h4, h5, h6⟩
      rw [filesysCollect_device_error]
      exact List.mem_append_right _ h7
    · have hfut := filesysPhase1_eligible_submitted stuck now mounts m hm hq
      rw [filesysCollect_device_error]
      exact List.mem_append_right _
        (filesysPhase2_deverr_fail_mem probe recTime _ stuck m hfut hpr)

/-- Witness for C5: a single unquarantined mount whose probe succeeds with
size 42 gets a device-error observation of 0 and a size observation of 42. -/
theorem claim_device_error_complete_witness :
    ((("sda", "/", "ext4") : FsLabels), (0 : ℚ)) ∈
        (filesysCollect [] 0 [⟨"sda", "/", "ext4", "rw"⟩]
          (fun _ => .success ⟨42, 10, 8, 5, 3⟩) (fun _ => 0)).2.device_error ∧
      ((("sda", "/", "ext4") : FsLabels), (42 : ℚ)) ∈
        (filesysCollect [] 0 [⟨"sda", "/", "ext4", "rw"⟩]
          (fun _ => .success ⟨42, 10, 8, 5, 3⟩) (fun _ => 0)).2.size := by
  have h := (((claim_device_error_complete [] 0 [⟨"sda", "/", "ext4", "rw"⟩]
    (fun _ => .success ⟨42, 10, 8, 5, 3⟩) (fun _ => 0)).2.2 ⟨"sda", "/", "ext4", "rw"⟩
    (by decide)).2 (by decide)).1 ⟨42, 10, 8, 5, 3⟩ rfl
  exact ⟨h.1, h.2.1⟩

/-- C9: a mount that is quarantined, or whose submitted probe times out or
errors, contributes no observation to any of the six statistics families
(size, free, avail, files, files_free, readonly) — only the device-error
observation with value 1. -/
theorem claim_failing_mount_stats_absent (stuck : StuckMounts) (now : ℚ)
    (mounts : List Mount) (probe : String → ProbeResult) (recTime : String → ℚ)
    (m : Mount) (hm : m ∈ mounts)
    (hfail : isQuarantined stuck now m.mountpoint = true ∨
      (isQuarantined stuck now m.mountpoint = false ∧
        (probe m.mountpoint = .timeout ∨ probe m.mountpoint = .error))) :
    mountLabels m ∉ statsLabels (filesysCollect stuck now mounts probe recTime).2 ∧
      (mountLabels m, 1) ∈
        (filesysCollect stuck now mounts probe recTime).2.device_error := by
  constructor
  · rw [filesysCollect_statsLabels]
    intro hlab
    obtain ⟨m', hm', hl, st, hps⟩ :=
      filesysPhase2_stats_source probe recTime _ stuck _ hlab
    have hmp : m.mountpoint = m'.mountpoint := by
      have := congrArg (fun p => p.2.1) hl
      simpa [mountLabels] using this
    rcases hfail with hq | ⟨_, hpr⟩
    · have hq' := filesysPhase1_submitted_not_quarantined stuck now mounts m' hm'
      rw [← hmp, hq] at hq'
      cases hq'
    · rw [← hmp] at hps
      rcases hpr with h | h <;> rw [h] at hps <;> cases hps
  · rcases hfail with hq | ⟨hq, hpr⟩
    · rw [filesysCollect_device_error]
      exact List.mem_append_left _
        (filesysPhase1_quarantined_obs stuck now mounts m hm hq)
    · rw [filesysCollect_device_error]
      exact List.mem_append_right _
        (filesysPhase2_deverr_fail_mem probe recTime _ stuck m
          (filesysPhase1_eligible_submitted stuck now mounts m hm hq) hpr)

/-- Witness for C9: a single mount whose probe times out has no entry in the
statistics families and a device-error observation of 1. -/
theorem claim_failing_mount_stats_absent_witness :
    mountLabels (⟨"sda", "/", "ext4", "rw"⟩ : Mount) ∉
        statsLabels (filesysCollect [] 0 [⟨"sda", "/", "ext4", "rw"⟩]
          (fun _ => .timeout) (fun _ => 7)).2 ∧
      (mountLabels (⟨"sda", "/", "ext4", "rw"⟩ : Mount), 1) ∈
        (filesysCollect [] 0 [⟨"sda", "/", "ext4", "rw"⟩]
          (fun _ => .timeout) (fun _ => 7)).2.device_error :=
  claim_failing_mount_stats_absent [] 0 [⟨"sda", "/", "ext4", "rw"⟩]
    (fun _ => .timeout) (fun _ => 7) ⟨"sda", "/", "ext4", "rw"⟩
    (by decide) (Or.inr ⟨by decide, Or.inl rfl⟩)

/-- C10: `MemCollector.collect` raises `KeyError` — a scrape-level failure
yielding no metrics — whenever any of its eight expected keys is absent from
the parsed memory-information source. -/
theorem claim_mem_missing_key_raises (current : List (String × ℚ)) (name : String)
    (hmem : name ∈ MEM_METRIC_NAMES) (habs : dictLookup current name = none) :
    memCollect current = .error "KeyError" :=
  memCollectLoop_missing current MEM_METRIC_NAMES name hmem habs

/-- Witness for C10: a parsed source containing only MemTotal (MemFree is
absent) makes the collector fail with KeyError. -/
theorem claim_mem_missing_key_raises_witness :
    memCollect [("MemTotal", 1)] = .error "KeyError" :=
  claim_mem_missing_key_raises [("MemTotal", 1)] "MemFree" (by decide) (by decide)

end PyExporter
